import Mathlib

/-!
Verification of the opensky_downloader ingestion pipeline.

This file shallowly embeds the parts of the program that the specification
talks about:

* `Aircraft` and `RecordInfo` model `src/models.rs` and the `RecordInfo`
  struct of `src/record_downloader.rs`; Rust `String` fields are modelled
  as `List Char` so that the key-field operations (emptiness test,
  uppercasing) are explicit.
* `DatabaseWriter` and its operations `write_records`, `add_record`,
  `set_chunk_size`, `finishBatches`, `finishProgress` model
  `src/db_writer.rs`.  A spawned insert task is represented by the batch
  it owns (the `join_handles` list holds the batches in dispatch order);
  the completion-tracker loop of `finish` is modelled as the pure
  function `trackerGo` over the list of join outcomes.
* `DownloadInfo.download` models `src/record_downloader.rs`, with the
  HTTP interaction abstracted into an `HttpOutcome` parameter.
* `handle_download` and `download_and_store` model `src/main.rs`; the
  run-level function returns the exit code, the ordered trace of
  store-lifecycle and dispatch events, and the progress values emitted
  by the tracker.
-/

namespace OpenSky

/-- Model of a Rust `String` (only ever compared to empty / uppercased). -/
abbrev Str := List Char

/-- The `Aircraft` record of `src/models.rs`: the `icao24` natural key plus
the remaining string-typed attributes of the registry row. -/
structure Aircraft where
  icao24 : Str
  timestamp : Str
  acars : Str
  adsb : Str
  built : Str
  category_description : Str
  country : Str
  engines : Str
  firstflightdate : Str
  first_seen : Str
  icao_aircraft_class : Str
  line_number : Str
  manufacturer_icao : Str
  manufacturer_name : Str
  model : Str
  modes : Str
  next_reg : Str
  operator_ : Str
  operator_callsign : Str
  operator_iata : Str
  operator_icao : Str
  owner : Str
  prev_reg : Str
  reg_until : Str
  registered : Str
  registration : Str
  sel_cal : Str
  serial_number : Str
  status : Str
  typecode : Str
  vdl : Str
deriving DecidableEq

/-- The `RecordInfo` struct of `src/record_downloader.rs`: a record plus the
byte position at which it was read. -/
structure RecordInfo where
  record : Aircraft
  position : Nat
deriving DecidableEq

/-- Model of `DatabaseError` of `src/db_writer.rs` (payloads abstracted). -/
inductive DatabaseError where
  | MongoError
  | JoinError
deriving DecidableEq

/-- The `DEFAULT_CHUNK_SIZE` constant of `src/db_writer.rs`. -/
def DEFAULT_CHUNK_SIZE : Nat := 1000

/-- The `DatabaseWriter` struct of `src/db_writer.rs`.  `collection` is the
opaque store handle; `join_handles` records, in dispatch order, the batch
owned by each spawned insert task. -/
structure DatabaseWriter (C T : Type) where
  collection : C
  chunk_size : Nat
  records : List T
  join_handles : List (List T)
deriving DecidableEq

/-- Model of `DatabaseWriter::new` (the connection itself is external): fresh writer
with the default chunk size, empty buffer and no outstanding tasks. -/
def DatabaseWriter.new (collection : C) : DatabaseWriter C T :=
  { collection := collection
    chunk_size := DEFAULT_CHUNK_SIZE
    records := []
    join_handles := [] }

/-- Model of `DatabaseWriter::set_chunk_size`: sets the chunk size and replaces the
record buffer by a fresh (empty) vector. -/
def DatabaseWriter.set_chunk_size (w : DatabaseWriter C T) (chunk_size : Nat) :
    DatabaseWriter C T :=
  { w with chunk_size := chunk_size, records := [] }

/-- Model of `DatabaseWriter::write_records`: takes the whole current buffer
(`mem::replace` with a fresh vector) and spawns one insert task owning it;
the task is appended to `join_handles`. -/
def DatabaseWriter.write_records (w : DatabaseWriter C T) : DatabaseWriter C T :=
  { w with records := [], join_handles := w.join_handles ++ [w.records] }

/-- Model of `DatabaseWriter::add_record`: pushes the record and dispatches the buffer
as soon as its length reaches the chunk size. -/
def DatabaseWriter.add_record (w : DatabaseWriter C T) (r : T) : DatabaseWriter C T :=
  let w' := { w with records := w.records ++ [r] }
  if w'.chunk_size ≤ w'.records.length then w'.write_records else w'

/-- Sequential `add_record` calls over a list of records. -/
def DatabaseWriter.runAdd (w : DatabaseWriter C T) (rs : List T) : DatabaseWriter C T :=
  rs.foldl DatabaseWriter.add_record w

/-- The batches dispatched by a whole run that ends in `finish`:
`finish` first calls `write_records` unconditionally (flushing the current
buffer, empty or not) and then drains the accumulated handles. -/
def DatabaseWriter.finishBatches (w : DatabaseWriter C T) : List (List T) :=
  w.write_records.join_handles

deriving instance DecidableEq for Except

/-- Outcome of awaiting one spawned insert task in `finish`: the join
succeeds and yields the task's own result (`ok`), or the join itself
fails (`err`, the task panicked or was cancelled). -/
inductive JoinOutcome where
  | ok (result : Except DatabaseError Unit)
  | err
deriving DecidableEq

/-- A join outcome counts as a task completion exactly when the join
succeeded, whatever the task's own result was. -/
def JoinOutcome.isCompletion : JoinOutcome → Bool
  | .ok _ => true
  | .err => false

/-- The number of completions (successful joins) in a list of outcomes. -/
def countCompletions (outcomes : List JoinOutcome) : Nat :=
  outcomes.countP JoinOutcome.isCompletion

/-- The waiting loop spawned by `DatabaseWriter::finish`: for each join that
returns `Ok` the counter is incremented and `counter / tasks * 100` is sent
on the progress channel; joins that return `Err` are skipped; after the
loop a final `100.0` is always sent. -/
def trackerGo (tasks : ℚ) (counter : Nat) : List JoinOutcome → List ℚ
  | [] => [100]
  | .ok _ :: rest =>
      ((counter + 1 : ℚ) / tasks) * 100 :: trackerGo tasks (counter + 1) rest
  | .err :: rest => trackerGo tasks counter rest

/-- The sequence of values `finish`'s tracker emits on the progress channel,
given the join outcome of each dispatched task (one outcome per handle, in
dispatch order; `tasks` is the number of handles). -/
def finishProgress (outcomes : List JoinOutcome) : List ℚ :=
  trackerGo (outcomes.length : ℚ) 0 outcomes

/-- Model of `DownloadError` of `src/record_downloader.rs` (payloads abstracted). -/
inductive DownloadError where
  | ReqwestError
  | CsvError
  | SendError
  | ZeroLengthError
  | ChannelError
deriving DecidableEq

/-- The mutable part of the `DownloadInfo` struct of
`src/record_downloader.rs`: the recorded content length and whether the
sending side of the channel is still held (`tx_channel` is `Some`). -/
structure DownloadInfo where
  content_length : Nat
  tx_channel_present : Bool
deriving DecidableEq

/-- Model of `DownloadInfo::new`: zero content length, sender present. -/
def DownloadInfo.new : DownloadInfo :=
  { content_length := 0, tx_channel_present := true }

/-- Abstraction of the HTTP interaction inside `DownloadInfo::download`:
the GET fails to connect, returns a non-success status, or succeeds with
an optional `content-length` header. -/
inductive HttpOutcome where
  | connError
  | statusError
  | okResp (content_length : Option Nat)
deriving DecidableEq

/-- Model of `DownloadInfo::download`: propagates a connection failure or a
non-success status as `ReqwestError`; requires a `content-length` header
(`ok_or(ZeroLengthError)?`) and stores it; then takes the sender (cloning
it and setting the field to `None`), failing with `ChannelError` when it
was already taken.  A success corresponds to spawning the producer task. -/
def DownloadInfo.download (d : DownloadInfo) (h : HttpOutcome) :
    DownloadInfo × Except DownloadError Unit :=
  match h with
  | .connError => (d, .error .ReqwestError)
  | .statusError => (d, .error .ReqwestError)
  | .okResp none => (d, .error .ZeroLengthError)
  | .okResp (some len) =>
      let d' : DownloadInfo := { d with content_length := len }
      if d'.tx_channel_present then
        ({ d' with tx_channel_present := false }, .ok ())
      else
        (d', .error .ChannelError)

/-- Model of `handle_download` of `src/main.rs`: drains the record channel; a record
whose `icao24` is empty is skipped (`continue`); otherwise its `icao24` is
uppercased and the record is handed to `DatabaseWriter::add_record`. -/
def handle_download (stream : List RecordInfo) (w : DatabaseWriter C Aircraft) :
    DatabaseWriter C Aircraft :=
  match stream with
  | [] => w
  | ri :: rest =>
      if ri.record.icao24 = [] then
        handle_download rest w
      else
        handle_download rest
          (w.add_record { ri.record with icao24 := ri.record.icao24.map Char.toUpper })

/-- The `ExitCodes` enum of `src/main.rs`. -/
inductive ExitCodes where
  | Success
  | DownloadError
  | DatabaseError
  | JoinError
deriving DecidableEq

/-- Observable pipeline events of one run of `download_and_store`:
completion of the collection drop, completion of the index creation, and
dispatch of one insert task owning the given batch. -/
inductive Event where
  | dropColl
  | createIdx
  | dispatch (batch : List Aircraft)
deriving DecidableEq

/-- Result of one modelled run of `download_and_store`. -/
structure RunResult where
  exit : ExitCodes
  events : List Event
  progress : List ℚ
deriving DecidableEq

/-- Model of `download_and_store` of `src/main.rs`, with the external outcomes as
parameters: `dlOk` is whether `download` returned `Ok`, `dropOk`/`idxOk`
whether the collection drop and the index creation succeeded,
`producerJoinOk` whether awaiting the producer's join handle succeeded,
`stream` the records received on the channel, and `insertJoins` the join
outcome of each dispatched insert task as consumed by `finish`'s tracker.
On download failure it falls through to `finish` (flushing the empty
buffer); on drop or index failure it returns early and `finish` never
runs; otherwise it drains the stream, awaits the producer and finishes. -/
def download_and_store (dlOk dropOk idxOk producerJoinOk : Bool)
    (stream : List RecordInfo) (insertJoins : List JoinOutcome)
    (w : DatabaseWriter C Aircraft) : RunResult :=
  if dlOk then
    if dropOk then
      if idxOk then
        let w1 := handle_download stream w
        { exit := if producerJoinOk then .Success else .JoinError
          events := .dropColl :: .createIdx :: w1.finishBatches.map .dispatch
          progress := finishProgress insertJoins }
      else
        { exit := .DatabaseError, events := [.dropColl], progress := [] }
    else
      { exit := .DatabaseError, events := [], progress := [] }
  else
    { exit := .DownloadError
      events := w.finishBatches.map .dispatch
      progress := finishProgress insertJoins }

/-! Helper lemmas about the batch accumulator. -/

theorem add_record_of_not_full (w : DatabaseWriter C T) (r : T)
    (h : w.records.length + 1 < w.chunk_size) :
    w.add_record r = { w with records := w.records ++ [r] } := by
  unfold DatabaseWriter.add_record
  rw [if_neg]
  simp only [List.length_append, List.length_cons, List.length_nil]
  omega

theorem add_record_of_full (w : DatabaseWriter C T) (r : T)
    (h : w.chunk_size ≤ w.records.length + 1) :
    w.add_record r =
      { w with records := [], join_handles := w.join_handles ++ [w.records ++ [r]] } := by
  unfold DatabaseWriter.add_record DatabaseWriter.write_records
  rw [if_pos]
  simp only [List.length_append, List.length_cons, List.length_nil]
  omega

theorem runAdd_spec (rs : List T) (w : DatabaseWriter C T)
    (hN : 1 ≤ w.chunk_size) (hbuf : w.records.length < w.chunk_size) :
    (w.runAdd rs).collection = w.collection ∧
    (w.runAdd rs).chunk_size = w.chunk_size ∧
    (w.runAdd rs).records.length = (w.records.length + rs.length) % w.chunk_size ∧
    ∃ ext, (w.runAdd rs).join_handles = w.join_handles ++ ext ∧
      ext.length = (w.records.length + rs.length) / w.chunk_size ∧
      ∀ b ∈ ext, b.length = w.chunk_size := by
  induction rs generalizing w with
  | nil =>
      refine ⟨rfl, rfl, ?_, [], by simp [DatabaseWriter.runAdd], ?_, by simp⟩
      · simpa [DatabaseWriter.runAdd] using (Nat.mod_eq_of_lt hbuf).symm
      · simpa using (Nat.div_eq_of_lt hbuf).symm
  | cons r rest ih =>
      have hstep : w.runAdd (r :: rest) = (w.add_record r).runAdd rest := rfl
      by_cases hfull : w.chunk_size ≤ w.records.length + 1
      · have heq : w.records.length + 1 = w.chunk_size := by omega
        rw [hstep, add_record_of_full w r hfull]
        obtain ⟨hc, hcs, hrec, ext, hjh, hlen, hball⟩ :=
          ih { w with records := [], join_handles := w.join_handles ++ [w.records ++ [r]] }
            hN (by simpa using hN)
        refine ⟨hc, hcs, ?_, (w.records ++ [r]) :: ext, ?_, ?_, ?_⟩
        · rw [hrec]
          simp only [List.length_nil, Nat.zero_add, List.length_cons]
          have : w.records.length + (rest.length + 1) = w.chunk_size + rest.length := by omega
          rw [this, Nat.add_mod_left]
        · rw [hjh]
          simp
        · simp only [List.length_cons, hlen, List.length_nil, Nat.zero_add]
          have : w.records.length + (rest.length + 1) = rest.length + w.chunk_size := by omega
          rw [this, Nat.add_div_right _ (by omega)]
        · intro b hb
          rcases List.mem_cons.mp hb with hb | hb
          · subst hb
            simp only [List.length_append, List.length_cons, List.length_nil]
            omega
          · exact hball b hb
      · have hlt : w.records.length + 1 < w.chunk_size := by omega
        rw [hstep, add_record_of_not_full w r hlt]
        obtain ⟨hc, hcs, hrec, ext, hjh, hlen, hball⟩ :=
          ih { w with records := w.records ++ [r] } hN (by simpa using hlt)
        refine ⟨hc, hcs, ?_, ext, hjh, ?_, hball⟩
        · rw [hrec]
          simp only [List.length_append, List.length_cons, List.length_nil]
          have : w.records.length + 1 + rest.length = w.records.length + (rest.length + 1) := by
            omega
          rw [this]
        · rw [hlen]
          simp only [List.length_append, List.length_cons, List.length_nil]
          have : w.records.length + 1 + rest.length = w.records.length + (rest.length + 1) := by
            omega
          rw [this]

theorem runAdd_append_last (w : DatabaseWriter C T) (rs : List T) (r : T) :
    w.runAdd (rs ++ [r]) = (w.runAdd rs).add_record r := by
  unfold DatabaseWriter.runAdd
  rw [List.foldl_append]
  rfl

/-- Claim C8 — for chunk size `N ≥ 1`, after every `add_record` call made
from a fresh writer the internal buffer holds strictly fewer than `N`
records, and every batch dispatched from `add_record` has exactly `N`
records. -/
theorem C8_add_record_invariant (C T : Type) (c : C) (N : Nat) (rs : List T) (r : T)
    (hN : 1 ≤ N) :
    (((((DatabaseWriter.new c).set_chunk_size N).runAdd rs).add_record r).records).length < N ∧
    ∀ b ∈ ((((DatabaseWriter.new c).set_chunk_size N).runAdd rs).add_record r).join_handles,
      b.length = N := by
  rw [← runAdd_append_last]
  obtain ⟨-, -, hrec, ext, hjh, -, hball⟩ :=
    runAdd_spec (rs ++ [r]) ((DatabaseWriter.new c).set_chunk_size N) hN (by simpa using hN)
  have hcs : ((DatabaseWriter.new c : DatabaseWriter C T).set_chunk_size N).chunk_size = N := rfl
  have hr0 : (((DatabaseWriter.new c : DatabaseWriter C T).set_chunk_size N).records).length = 0 :=
    rfl
  have hj0 : ((DatabaseWriter.new c : DatabaseWriter C T).set_chunk_size N).join_handles = [] :=
    rfl
  rw [hcs] at hrec hball
  rw [hr0] at hrec
  rw [hj0] at hjh
  constructor
  · rw [hrec]
    exact Nat.mod_lt _ (by omega)
  · intro b hb
    rw [hjh] at hb
    exact hball b (by simpa using hb)

/-- Witness for C8 at `N = 2`, three records already added, a fourth added. -/
theorem C8_witness :
    (((((DatabaseWriter.new ()).set_chunk_size 2).runAdd [1, 2, 3]).add_record 4).records).length
      < 2 ∧
    ∀ b ∈ ((((DatabaseWriter.new ()).set_chunk_size 2).runAdd [1, 2, 3]).add_record
        (4 : Nat)).join_handles,
      b.length = 2 :=
  C8_add_record_invariant Unit Nat () 2 [1, 2, 3] 4 (by decide)

/-- Claim C1 (amended) — for chunk size `N ≥ 1` and `R` fed records, the run
dispatches `R / N` full batches of size exactly `N` followed by one final
batch of size `R % N` (dispatched by `finish` even when it is empty, i.e.
when `N` divides `R`, in particular when `R = 0`): `⌊R/N⌋ + 1` batches in
total. -/
theorem C1_batch_sizes (C T : Type) (c : C) (N : Nat) (rs : List T) (hN : 1 ≤ N) :
    ∃ full last,
      (((DatabaseWriter.new c).set_chunk_size N).runAdd rs).finishBatches = full ++ [last] ∧
      full.length = rs.length / N ∧
      (∀ b ∈ full, b.length = N) ∧
      last.length = rs.length % N := by
  obtain ⟨-, -, hrec, ext, hjh, hlen, hball⟩ :=
    runAdd_spec rs ((DatabaseWriter.new c).set_chunk_size N) hN (by simpa using hN)
  have hcs : ((DatabaseWriter.new c : DatabaseWriter C T).set_chunk_size N).chunk_size = N := rfl
  have hr0 : (((DatabaseWriter.new c : DatabaseWriter C T).set_chunk_size N).records).length = 0 :=
    rfl
  have hj0 : ((DatabaseWriter.new c : DatabaseWriter C T).set_chunk_size N).join_handles = [] :=
    rfl
  rw [hcs] at hrec hlen hball
  rw [hr0] at hrec hlen
  rw [hj0] at hjh
  simp only [Nat.zero_add] at hrec hlen
  refine ⟨ext, (((DatabaseWriter.new c).set_chunk_size N).runAdd rs).records, ?_, hlen, hball,
    hrec⟩
  unfold DatabaseWriter.finishBatches DatabaseWriter.write_records
  rw [hjh]
  simp

/-- Witness for C1 at `N = 2` and `R = 3`: batches `[1, 2]` and `[3]`. -/
theorem C1_witness :
    ∃ full last,
      (((DatabaseWriter.new ()).set_chunk_size 2).runAdd [1, 2, 3]).finishBatches
        = full ++ [last] ∧
      full.length = [1, 2, 3].length / 2 ∧
      (∀ b ∈ full, b.length = 2) ∧
      last.length = [1, 2, 3].length % 2 :=
  C1_batch_sizes Unit Nat () 2 [1, 2, 3] (by decide)

/-- Counterexample to C1 as stated: with chunk size `1` and zero records fed,
the claim asserts that zero batches are dispatched, but the run dispatches
one (empty) batch, because `finish` flushes the buffer unconditionally. -/
theorem C1_counterexample :
    ((((DatabaseWriter.new ()).set_chunk_size 1).runAdd ([] : List Nat)).finishBatches).length
        = 1 ∧
    ¬ (((DatabaseWriter.new ()).set_chunk_size 1).runAdd ([] : List Nat)).finishBatches
        = [] := by
  decide

/-- Claim C10 — `set_chunk_size` empties the record buffer (the buffered
records are discarded, never dispatched) and leaves the dispatched-task
list and the collection handle unchanged, while installing the new chunk
size. -/
theorem C10_set_chunk_size_frame (C T : Type) (w : DatabaseWriter C T) (n : Nat) :
    (w.set_chunk_size n).records = [] ∧
    (w.set_chunk_size n).join_handles = w.join_handles ∧
    (w.set_chunk_size n).collection = w.collection ∧
    (w.set_chunk_size n).chunk_size = n :=
  ⟨rfl, rfl, rfl, rfl⟩

/-! Helper lemmas about the completion tracker. -/

theorem trackerGo_closed (tasks : ℚ) (counter : Nat) (outcomes : List JoinOutcome) :
    trackerGo tasks counter outcomes =
      (List.range (countCompletions outcomes)).map
        (fun i : Nat => (((counter : ℚ) + (i : ℚ) + 1) / tasks) * 100) ++ [100] := by
  induction outcomes generalizing counter with
  | nil => simp [trackerGo, countCompletions]
  | cons o rest ih =>
      cases o with
      | ok res =>
          have hcount : countCompletions (JoinOutcome.ok res :: rest)
              = countCompletions rest + 1 := by
            simp [countCompletions, List.countP_cons, JoinOutcome.isCompletion]
          rw [trackerGo, hcount, ih (counter + 1), List.range_succ_eq_map, List.map_cons,
            List.map_map, List.cons_append]
          congr 1
          · push_cast
            ring
          · congr 1
            apply List.map_congr_left
            intro i hi
            simp only [Function.comp_apply]
            push_cast
            ring
      | err =>
          have hcount : countCompletions (JoinOutcome.err :: rest) = countCompletions rest := by
            simp [countCompletions, List.countP_cons, JoinOutcome.isCompletion]
          rw [trackerGo, hcount, ih counter]

theorem finishProgress_closed (outcomes : List JoinOutcome) :
    finishProgress outcomes =
      (List.range (countCompletions outcomes)).map
        (fun i : Nat => (((i : ℚ) + 1) / (outcomes.length : ℚ)) * 100) ++ [100] := by
  unfold finishProgress
  rw [trackerGo_closed]
  congr 1
  apply List.map_congr_left
  intro i hi
  push_cast
  ring

/-- Claim C4 — `finish`'s tracker publishes exactly one progress value per
task completion, whether the completed task's own insert succeeded or
failed (both are joined `Ok` and counted by `countCompletions`), and the
`k`-th published value is `k / total × 100` for a monotonically
incremented counter `k`; a terminal `100` follows.  Tasks whose join
itself fails never completed and publish nothing. -/
theorem C4_tracker_counts_completions (outcomes : List JoinOutcome) :
    finishProgress outcomes =
      (List.range (countCompletions outcomes)).map
        (fun i : Nat => (((i : ℚ) + 1) / (outcomes.length : ℚ)) * 100) ++ [100] :=
  finishProgress_closed outcomes

/-- Claim C5 — the sequence of progress values emitted by the tracker is
non-decreasing, starts strictly above `0` and ends with exactly `100`,
for every list of join outcomes, including the empty one. -/
theorem C5_progress_shape (outcomes : List JoinOutcome) :
    ∃ v tl, finishProgress outcomes = v :: tl ∧ 0 < v ∧
      List.Chain' (· ≤ ·) (v :: tl) ∧ (v :: tl).getLast? = some 100 := by
  have hform := finishProgress_closed outcomes
  have hk : countCompletions outcomes ≤ outcomes.length := List.countP_le_length _
  set k := countCompletions outcomes with hkdef
  set n := outcomes.length with hndef
  set f : Nat → ℚ := fun i : Nat => (((i : ℚ) + 1) / (n : ℚ)) * 100 with hfdef
  have hpair : List.Pairwise (· ≤ ·) ((List.range k).map f ++ [100]) := by
    apply List.pairwise_append.mpr
    refine ⟨?_, by simp, ?_⟩
    · apply List.pairwise_map.mpr
      rcases Nat.eq_zero_or_pos k with hk0 | hkpos
      · simp [hk0]
      · have hn : 0 < n := lt_of_lt_of_le hkpos hk
        have hnq : (0 : ℚ) < (n : ℚ) := by exact_mod_cast hn
        apply (List.pairwise_lt_range k).imp
        intro a b hab
        have : ((a : ℚ) + 1) / (n : ℚ) ≤ ((b : ℚ) + 1) / (n : ℚ) := by
          apply (div_le_div_iff_of_pos_right hnq).mpr
          have : (a : ℚ) ≤ (b : ℚ) := by exact_mod_cast Nat.le_of_lt hab
          linarith
        simp only [hfdef]
        linarith
    · intro x hx y hy
      simp only [List.mem_singleton] at hy
      subst hy
      obtain ⟨i, hi, hfi⟩ := List.mem_map.mp hx
      have hik : i < k := List.mem_range.mp hi
      have hn : 0 < n := lt_of_le_of_lt (Nat.zero_le i) (lt_of_lt_of_le hik hk)
      have hnq : (0 : ℚ) < (n : ℚ) := by exact_mod_cast hn
      have hi1 : ((i : ℚ) + 1) ≤ (n : ℚ) := by
        have : i + 1 ≤ n := Nat.succ_le_of_lt (lt_of_lt_of_le hik hk)
        exact_mod_cast this
      have hdiv : ((i : ℚ) + 1) / (n : ℚ) ≤ 1 := (div_le_one hnq).mpr hi1
      rw [← hfi]
      simp only [hfdef]
      linarith
  rcases Nat.eq_zero_or_pos k with hk0 | hkpos
  · refine ⟨100, [], ?_, by norm_num, ?_, rfl⟩
    · rw [hform, hk0]
      simp
    · simp
  · have hn : 0 < n := lt_of_lt_of_le hkpos hk
    have hnq : (0 : ℚ) < (n : ℚ) := by exact_mod_cast hn
    obtain ⟨j, hj⟩ := Nat.exists_eq_succ_of_ne_zero (Nat.pos_iff_ne_zero.mp hkpos)
    have hsplit : (List.range k).map f = f 0 :: (List.range j).map (f ∘ Nat.succ) := by
      rw [hj, List.range_succ_eq_map, List.map_cons, List.map_map]
    refine ⟨f 0, (List.range j).map (f ∘ Nat.succ) ++ [100], ?_, ?_, ?_, ?_⟩
    · rw [hform, hsplit]
      simp
    · simp only [hfdef, Nat.cast_zero, zero_add]
      positivity
    · have : f 0 :: ((List.range j).map (f ∘ Nat.succ) ++ [100])
          = (List.range k).map f ++ [100] := by
        rw [hsplit]
        simp
      rw [this]
      exact hpair.chain'
    · have : f 0 :: ((List.range j).map (f ∘ Nat.succ) ++ [100])
          = (List.range k).map f ++ [100] := by
        rw [hsplit]
        simp
      rw [this]
      exact List.getLast?_concat _

/-! Helper lemmas about record validity and normalization. -/

theorem char_toNat_ofNat {n : Nat} (h : n.isValidChar) : (Char.ofNat n).toNat = n := by
  rw [Char.ofNat, dif_pos h]
  rfl

theorem toUpper_toUpper (c : Char) : Char.toUpper (Char.toUpper c) = Char.toUpper c := by
  unfold Char.toUpper
  simp only []
  by_cases h : c.toNat ≥ 97 ∧ c.toNat ≤ 122
  · rw [if_pos h]
    have hv : Nat.isValidChar (c.toNat - 32) := by
      left
      omega
    rw [char_toNat_ofNat hv]
    have h2 : ¬ (c.toNat - 32 ≥ 97 ∧ c.toNat - 32 ≤ 122) := by omega
    rw [if_neg h2]
  · rw [if_neg h, if_neg h]

/-- Every record held anywhere in the writer (buffered or already handed to
a dispatched task) satisfies `P`. -/
def WriterAll (P : T → Prop) (w : DatabaseWriter C T) : Prop :=
  (∀ x ∈ w.records, P x) ∧ ∀ b ∈ w.join_handles, ∀ x ∈ b, P x

theorem WriterAll.add_record {P : T → Prop} {w : DatabaseWriter C T}
    (h : WriterAll P w) {r : T} (hr : P r) : WriterAll P (w.add_record r) := by
  obtain ⟨hrec, hjh⟩ := h
  have hrec' : ∀ x ∈ w.records ++ [r], P x := by
    intro x hx
    rcases List.mem_append.mp hx with hx | hx
    · exact hrec x hx
    · rw [List.mem_singleton.mp hx]
      exact hr
  unfold DatabaseWriter.add_record
  by_cases hfull : w.chunk_size ≤ (w.records ++ [r]).length
  · rw [if_pos hfull]
    refine ⟨by simp [DatabaseWriter.write_records], ?_⟩
    intro b hb x hx
    simp only [DatabaseWriter.write_records, List.mem_append, List.mem_singleton] at hb
    rcases hb with hb | hb
    · exact hjh b hb x hx
    · subst hb
      exact hrec' x hx
  · rw [if_neg hfull]
    exact ⟨hrec', hjh⟩

theorem WriterAll.finishBatches {P : T → Prop} {w : DatabaseWriter C T}
    (h : WriterAll P w) : ∀ b ∈ w.finishBatches, ∀ x ∈ b, P x := by
  obtain ⟨hrec, hjh⟩ := h
  intro b hb x hx
  simp only [DatabaseWriter.finishBatches, DatabaseWriter.write_records, List.mem_append,
    List.mem_singleton] at hb
  rcases hb with hb | hb
  · exact hjh b hb x hx
  · subst hb
    exact hrec x hx

/-- The per-record guarantee of the Filter/Normalizer: the key field is
non-empty and is a fixed point of uppercasing. -/
def GoodKey (r : Aircraft) : Prop :=
  r.icao24 ≠ [] ∧ r.icao24.map Char.toUpper = r.icao24

theorem goodKey_normalize (r : Aircraft) (h : r.icao24 ≠ []) :
    GoodKey { r with icao24 := r.icao24.map Char.toUpper } := by
  constructor
  · simpa using h
  · show (r.icao24.map Char.toUpper).map Char.toUpper = r.icao24.map Char.toUpper
    rw [List.map_map]
    apply List.map_congr_left
    intro c hc
    exact toUpper_toUpper c

theorem handle_download_writerAll (stream : List RecordInfo) (w : DatabaseWriter C Aircraft)
    (h : WriterAll GoodKey w) : WriterAll GoodKey (handle_download stream w) := by
  induction stream generalizing w with
  | nil => exact h
  | cons ri rest ih =>
      unfold handle_download
      by_cases hempty : ri.record.icao24 = []
      · rw [if_pos hempty]
        exact ih w h
      · rw [if_neg hempty]
        exact ih _ (h.add_record (goodKey_normalize ri.record hempty))

/-- Claim C2 — every record contained in any dispatched batch (including the
final flush) has a non-empty `icao24` key which is already uppercase
(uppercasing it again changes nothing): empty-keyed records are dropped
before batching and batched records were uppercased first. -/
theorem C2_batch_records_valid (C : Type) (c : C) (N : Nat) (stream : List RecordInfo)
    (b : List Aircraft)
    (hb : b ∈ (handle_download stream ((DatabaseWriter.new c).set_chunk_size N)).finishBatches)
    (r : Aircraft) (hr : r ∈ b) :
    r.icao24 ≠ [] ∧ r.icao24.map Char.toUpper = r.icao24 := by
  have hinv : WriterAll GoodKey ((DatabaseWriter.new c : DatabaseWriter C Aircraft).set_chunk_size
      N) := by
    constructor
    · intro x hx
      simp [DatabaseWriter.new, DatabaseWriter.set_chunk_size] at hx
    · intro bb hbb
      simp [DatabaseWriter.new, DatabaseWriter.set_chunk_size] at hbb
  exact (handle_download_writerAll stream _ hinv).finishBatches b hb r hr

/-- A concrete source record whose key is the single lowercase letter `a`. -/
def testAircraft : Aircraft :=
  ⟨['a'], [], [], [], [], [], [], [], [], [], [], [], [], [], [], [],
   [], [], [], [], [], [], [], [], [], [], [], [], [], [], []⟩

/-- The same record after normalization: key uppercased to `A`. -/
def testAircraftUp : Aircraft :=
  { testAircraft with icao24 := ['A'] }

/-- Witness for C2: with chunk size `1` and the single lowercase-keyed source
record, the dispatched batch holds its normalized form. -/
theorem C2_witness :
    testAircraftUp.icao24 ≠ [] ∧
    testAircraftUp.icao24.map Char.toUpper = testAircraftUp.icao24 :=
  C2_batch_records_valid Unit () 1 [⟨testAircraft, 0⟩] [testAircraftUp] (by decide)
    testAircraftUp (by decide)

/-! Helper lemmas about event-trace decompositions. -/

theorem cons_cons_decomp {x y : Event} {rest l1 l2 : List Event} {b : List Aircraft}
    (h : x :: y :: rest = l1 ++ Event.dispatch b :: l2)
    (hx : x ≠ Event.dispatch b) (hy : y ≠ Event.dispatch b) :
    x ∈ l1 ∧ y ∈ l1 := by
  cases l1 with
  | nil =>
      rw [List.nil_append] at h
      exact absurd (List.head_eq_of_cons_eq h) hx
  | cons e l1' =>
      cases l1' with
      | nil =>
          rw [List.cons_append, List.nil_append] at h
          have h2 := List.tail_eq_of_cons_eq h
          exact absurd (List.head_eq_of_cons_eq h2) hy
      | cons e2 l1'' =>
          rw [List.cons_append, List.cons_append] at h
          have h1 := List.head_eq_of_cons_eq h
          have h2 := List.head_eq_of_cons_eq (List.tail_eq_of_cons_eq h)
          subst h1
          subst h2
          exact ⟨List.mem_cons_self x _, List.mem_cons_of_mem x (List.mem_cons_self y _)⟩

theorem singleton_decomp {x : Event} {l1 l2 : List Event} {b : List Aircraft}
    (h : [x] = l1 ++ Event.dispatch b :: l2) : x = Event.dispatch b := by
  cases l1 with
  | nil =>
      rw [List.nil_append] at h
      exact List.head_eq_of_cons_eq h
  | cons e l1' =>
      rw [List.cons_append] at h
      have h2 := List.tail_eq_of_cons_eq h
      exact absurd h2.symm (List.append_ne_nil_of_right_ne_nil l1' (List.cons_ne_nil _ _))

/-- Claim C3 (amended) — every dispatch of a batch that contains at least one
record happens strictly after both the collection drop and the index
creation have completed; the only dispatch that can happen without them is
the empty unconditional flush performed by `finish` on the
download-failure path. -/
theorem C3_lifecycle_before_dispatch (C : Type) (dlOk dropOk idxOk pjOk : Bool)
    (stream : List RecordInfo) (ins : List JoinOutcome) (c : C) (N : Nat)
    (l1 l2 : List Event) (b : List Aircraft)
    (hev : (download_and_store dlOk dropOk idxOk pjOk stream ins
        ((DatabaseWriter.new c).set_chunk_size N)).events = l1 ++ Event.dispatch b :: l2)
    (hb : b ≠ []) :
    Event.dropColl ∈ l1 ∧ Event.createIdx ∈ l1 := by
  cases dlOk with
  | false =>
      exfalso
      have hfb : ((DatabaseWriter.new c : DatabaseWriter C Aircraft).set_chunk_size
          N).finishBatches = [[]] := rfl
      simp only [download_and_store, Bool.false_eq_true, if_false, hfb, List.map] at hev
      have := singleton_decomp hev
      have hbe : b = [] := by
        injection this.symm
      exact hb hbe
  | true =>
      cases dropOk with
      | false =>
          exfalso
          simp only [download_and_store, if_true, Bool.false_eq_true, if_false] at hev
          exact List.cons_ne_nil _ _ (List.append_eq_nil.mp hev.symm).2
      | true =>
          cases idxOk with
          | false =>
              exfalso
              simp only [download_and_store, if_true, Bool.false_eq_true, if_false] at hev
              have := singleton_decomp hev
              exact Event.noConfusion this
          | true =>
              simp only [download_and_store, if_true] at hev
              exact cons_cons_decomp hev (by intro h; exact Event.noConfusion h)
                (by intro h; exact Event.noConfusion h)

/-- Witness for C3: a successful run over one valid record with chunk size
`1` dispatches its non-empty batch only after both lifecycle events. -/
theorem C3_witness :
    Event.dropColl ∈ [Event.dropColl, Event.createIdx] ∧
    Event.createIdx ∈ [Event.dropColl, Event.createIdx] :=
  C3_lifecycle_before_dispatch Unit true true true true [⟨testAircraft, 0⟩] [] () 1
    [Event.dropColl, Event.createIdx] [Event.dispatch []] [testAircraftUp]
    (by decide) (by decide)

/-- Counterexample to C3 as stated: on the download-failure path the
function still falls through to `finish`, which dispatches one (empty)
WriteTask although the collection drop and the index creation never ran,
so it is not true that every dispatched WriteTask is preceded by both. -/
theorem C3_counterexample :
    ¬ (∀ (l1 l2 : List Event) (b : List Aircraft),
        (download_and_store false true true true [] []
            ((DatabaseWriter.new ()).set_chunk_size DEFAULT_CHUNK_SIZE)).events
          = l1 ++ Event.dispatch b :: l2 →
        Event.dropColl ∈ l1 ∧ Event.createIdx ∈ l1) := by
  intro hclaim
  have h := hclaim [] [] [] (by decide)
  simp at h

/-- Claim C7 — the run's exit category is a function of the producer-side
outcomes alone (download result, collection drop, index creation, producer
join); it does not depend on the stream contents nor on the join outcomes
of the individual batch-insert WriteTasks, so a run whose batch inserts
fail but whose producer side succeeds still exits `Success`. -/
theorem C7_exit_from_producer_side (C : Type) (dlOk dropOk idxOk pjOk : Bool)
    (stream : List RecordInfo) (ins : List JoinOutcome) (w : DatabaseWriter C Aircraft) :
    (download_and_store dlOk dropOk idxOk pjOk stream ins w).exit =
      (if dlOk then
        if dropOk then
          if idxOk then (if pjOk then ExitCodes.Success else ExitCodes.JoinError)
          else ExitCodes.DatabaseError
        else ExitCodes.DatabaseError
      else ExitCodes.DownloadError) := by
  cases dlOk <;> cases dropOk <;> cases idxOk <;> cases pjOk <;> rfl

/-- Claim C6 (amended) — `download` succeeds exactly when the GET succeeded
with a `content-length` header present and the sending side of the channel
is still held; a missing `content-length` IS a hard failure
(`ZeroLengthError`), besides connection/status failures (`ReqwestError`)
and the consumed-channel failure (`ChannelError`). -/
theorem C6_download_success_iff (d : DownloadInfo) (h : HttpOutcome) :
    (d.download h).2 = Except.ok () ↔
      (∃ len, h = HttpOutcome.okResp (some len)) ∧ d.tx_channel_present = true := by
  cases h with
  | connError => simp [DownloadInfo.download]
  | statusError => simp [DownloadInfo.download]
  | okResp o =>
      cases o with
      | none => simp [DownloadInfo.download]
      | some len =>
          cases htx : d.tx_channel_present with
          | false => simp [DownloadInfo.download, htx]
          | true => simp [DownloadInfo.download, htx]

/-- Counterexample to C6 as stated: a fresh `DownloadInfo` and a successful
GET without a `content-length` header make `download` fail with
`ZeroLengthError`, contradicting the claim that a missing content length
is not a failure. -/
theorem C6_counterexample :
    (DownloadInfo.new.download (HttpOutcome.okResp none)).2
        = Except.error DownloadError.ZeroLengthError ∧
    (DownloadInfo.new.download (HttpOutcome.okResp none)).2 ≠ Except.ok () := by
  decide

/-- Claim C9 — a successful `download` consumes the sending side of the
channel (`tx_channel` becomes `None`), and any subsequent `download` call
on the same value fails with `ChannelError` even when its own GET succeeds
with a content length, instead of starting a second producer. -/
theorem C9_download_single_shot (d : DownloadInfo) (h : HttpOutcome) (len : Nat)
    (hsucc : (d.download h).2 = Except.ok ()) :
    (d.download h).1.tx_channel_present = false ∧
    ((d.download h).1.download (HttpOutcome.okResp (some len))).2
      = Except.error DownloadError.ChannelError := by
  cases h with
  | connError => simp [DownloadInfo.download] at hsucc
  | statusError => simp [DownloadInfo.download] at hsucc
  | okResp o =>
      cases o with
      | none => simp [DownloadInfo.download] at hsucc
      | some l0 =>
          cases htx : d.tx_channel_present with
          | false => simp [DownloadInfo.download, htx] at hsucc
          | true =>
              constructor
              · simp [DownloadInfo.download, htx]
              · simp [DownloadInfo.download, htx]

/-- Witness for C9: first call succeeds, second call on the same value
returns `ChannelError`. -/
theorem C9_witness :
    (DownloadInfo.new.download (HttpOutcome.okResp (some 5))).1.tx_channel_present = false ∧
    ((DownloadInfo.new.download (HttpOutcome.okResp (some 5))).1.download
        (HttpOutcome.okResp (some 7))).2 = Except.error DownloadError.ChannelError :=
  C9_download_single_shot DownloadInfo.new (HttpOutcome.okResp (some 5)) 7 (by decide)

end OpenSky
